import Mathlib

/-!
Verification development for the analystBot trading-day synchronization and
indicator-computation pipeline.

The Python sources embedded here (shallow embedding: prices as rationals,
dates as naturals, SQL tables as lists of rows):

- scripts/calculate_indicators.py : BTD/STR indicator computation and the
  column-selective UPDATE of the latest row.
- scripts/update_db.py            : NYSE-calendar gap detection, the
  fetch-and-persist loop with its pacing delay, and the per-run orchestrator.
- scripts/run_live.py             : the older pipeline variant (22-day gap
  check, unguarded BTD/STR computation, reversed fetch order).
- data/setup_db.py                : the stock_data table keyed by
  (symbol, date).
-/

namespace AnalystBot

/-- Antisymmetry of the order on the rationals, packaged for the list
minimum/maximum lemmas. -/
instance : Std.Antisymm ((· ≤ ·) : ℚ → ℚ → Prop) := ⟨fun h₁ h₂ => le_antisymm h₁ h₂⟩

/-- Rounding to two decimals, embedding the `round(x, 2)` calls of the Python
sources: `round2 q = floor(q * 100 + 1/2) / 100`, i.e. round half up.  Python
rounds floats half to even; the two agree except at exact `.005` ties, which
no statement in this file exercises. -/
def round2 (q : ℚ) : ℚ := (⌊q * 100 + 1 / 2⌋ : ℚ) / 100

/-- One price bar as read by `get_stock_data` (calculate_indicators.py):
the columns of the dataframe that the indicator computation reads. -/
structure PriceBar where
  high_price : ℚ
  low_price : ℚ
  close_price : ℚ
deriving DecidableEq, Repr

/-- Closes of the `period` bars immediately before the current (last) bar:
`past_data = df.iloc[-(period + 1):-1]` followed by reading `close_price`
(calculate_indicators.py lines 82-83).  `df` is ordered oldest to newest. -/
def pastCloses (df : List PriceBar) (period : ℕ) : List ℚ :=
  ((df.drop (df.length - (period + 1))).dropLast).map (fun b => b.close_price)

/-- Embedding of `calculate_btd_str(df, period)` from calculate_indicators.py
(lines 65-98).  Returns the pair (BTD, STR) for the given lookback period:
both `none` when fewer than `period + 1` bars exist; BTD is computed only
when the lowest past close is strictly positive and STR only when the highest
past close is strictly positive, each rounded to two decimals.  `List.min?`
embeds `past_data["close_price"].min()`: on an empty series pandas yields NaN,
every comparison against NaN is false, and the `> 0` guard fails, which the
`none` branch reproduces. -/
def calculate_btd_str (df : List PriceBar) (period : ℕ) : Option ℚ × Option ℚ :=
  if df.length < period + 1 then (none, none)
  else
    match df.getLast? with
    | none => (none, none)
    | some current =>
      let btd :=
        match (pastCloses df period).min? with
        | some m => if 0 < m then some (round2 ((current.high_price - m) / m * 100)) else none
        | none => none
      let strv :=
        match (pastCloses df period).max? with
        | some m => if 0 < m then some (round2 ((current.low_price - m) / m * 100)) else none
        | none => none
      (btd, strv)

/-- Characterization of `List.min?` on rationals: it returns exactly the least
element of the list. -/
lemma ratMin?_eq_some_iff (l : List ℚ) (a : ℚ) :
    l.min? = some a ↔ a ∈ l ∧ ∀ b ∈ l, a ≤ b :=
  List.min?_eq_some_iff (fun _ => le_refl _) (fun a b => min_choice a b) (fun _ _ _ => le_min_iff)

/-- Characterization of `List.max?` on rationals: it returns exactly the
greatest element of the list. -/
lemma ratMax?_eq_some_iff (l : List ℚ) (a : ℚ) :
    l.max? = some a ↔ a ∈ l ∧ ∀ b ∈ l, b ≤ a :=
  List.max?_eq_some_iff (fun _ => le_refl _) (fun a b => max_choice a b) (fun _ _ _ => max_le_iff)

/-- C1.  For every series of bars ordered oldest to newest holding at least
`p + 1` bars, with `L` the minimum and `H` the maximum close over the `p` bars
immediately before the current (last) bar, both strictly positive,
`calculate_btd_str` returns
`BTD = round2 ((currentHigh - L) / L * 100)` and
`STR = round2 ((currentLow - H) / H * 100)`. -/
theorem btd_str_formula (df : List PriceBar) (p : ℕ) (cur : PriceBar) (L H : ℚ)
    (hlen : p + 1 ≤ df.length) (hcur : df.getLast? = some cur)
    (hLmem : L ∈ pastCloses df p) (hLle : ∀ x ∈ pastCloses df p, L ≤ x) (hLpos : 0 < L)
    (hHmem : H ∈ pastCloses df p) (hHge : ∀ x ∈ pastCloses df p, x ≤ H) (hHpos : 0 < H) :
    calculate_btd_str df p =
      (some (round2 ((cur.high_price - L) / L * 100)),
       some (round2 ((cur.low_price - H) / H * 100))) := by
  have hmin : (pastCloses df p).min? = some L := (ratMin?_eq_some_iff _ _).mpr ⟨hLmem, hLle⟩
  have hmax : (pastCloses df p).max? = some H := (ratMax?_eq_some_iff _ _).mpr ⟨hHmem, hHge⟩
  unfold calculate_btd_str
  rw [if_neg (by omega), hcur, hmin, hmax]
  simp [if_pos hLpos, if_pos hHpos]

/-- The worked example of the specification: 22 past bars whose closes have
minimum 90 and maximum 120, current bar with high 95 and low 110. -/
def exampleDf : List PriceBar :=
  [⟨90, 90, 90⟩, ⟨120, 120, 120⟩] ++ List.replicate 20 ⟨100, 100, 100⟩ ++ [⟨95, 110, 100⟩]

/-- C1 witness.  On the worked example, `calculate_btd_str` with period 22
returns BTD = 5.56 and STR = -8.33. -/
theorem btd_str_formula_witness :
    calculate_btd_str exampleDf 22 = (some 5.56, some (-8.33)) := by
  have h := btd_str_formula exampleDf 22 ⟨95, 110, 100⟩ 90 120 (by decide) (by decide)
    (by decide) (by decide) (by decide) (by decide) (by decide) (by decide)
  rw [h]
  norm_num [round2, Prod.ext_iff]

/-- Null-safety of the canonical indicator computation
(calculate_indicators.py): fewer than `p + 1` bars yields `(none, none)`, a
non-positive lowest past close yields a null BTD, and a non-positive highest
past close yields a null STR.  The function is total, so it never raises. -/
theorem calculate_btd_str_null_guards (df : List PriceBar) (p : ℕ) :
    (df.length < p + 1 → calculate_btd_str df p = (none, none))
    ∧ (∀ L, (pastCloses df p).min? = some L → L ≤ 0 → (calculate_btd_str df p).1 = none)
    ∧ (∀ H, (pastCloses df p).max? = some H → H ≤ 0 → (calculate_btd_str df p).2 = none) := by
  refine ⟨fun h => by simp [calculate_btd_str, if_pos h], fun L hL hLle => ?_, fun H hH hHle => ?_⟩
  · by_cases h : df.length < p + 1
    · simp [calculate_btd_str, if_pos h]
    · cases hcur : df.getLast? with
      | none => simp [calculate_btd_str, if_neg h, hcur]
      | some cur => simp [calculate_btd_str, if_neg h, hcur, hL, if_neg (not_lt.mpr hLle)]
  · by_cases h : df.length < p + 1
    · simp [calculate_btd_str, if_pos h]
    · cases hcur : df.getLast? with
      | none => simp [calculate_btd_str, if_neg h, hcur]
      | some cur => simp [calculate_btd_str, if_neg h, hcur, hH, if_neg (not_lt.mpr hHle)]

/-- Failure raised by the unguarded computation in run_live.py: a Python
`ZeroDivisionError`. -/
inductive CalcFailure where
  | divByZero
deriving DecidableEq, Repr

/-- Embedding of `calculate_btd_str(symbol)` from run_live.py (lines 235-252),
the older pipeline variant.  Its input is the result of
`SELECT ... ORDER BY date DESC LIMIT 23`: rows ordered newest first, the
current bar at the head, the 22 lookback bars in the tail.  When fewer than
23 rows exist it returns null values; otherwise it divides by the lowest and
highest past close with no positivity guard, so a zero close raises
`ZeroDivisionError` (modelled as `Except.error .divByZero`; the division by
the lowest close is executed first, then the one by the highest close).  The
computed values are also written onto the latest row of the table, modelled
separately. -/
def runLive_calculate_btd_str (results : List PriceBar) :
    Except CalcFailure (Option (ℚ × ℚ × ℚ)) :=
  if results.length ≠ 23 then .ok none
  else
    match results with
    | [] => .ok none
    | current :: past =>
      let closes := past.map (fun b => b.close_price)
      match closes.min?, closes.max? with
      | some lowest, some highest =>
        if lowest = 0 then .error .divByZero
        else if highest = 0 then .error .divByZero
        else .ok (some (round2 ((current.high_price - lowest) / lowest * 100),
                        round2 ((current.low_price - highest) / highest * 100),
                        current.close_price))
      | _, _ => .ok none

/-- A 23-row series (newest first) in which one of the 22 lookback closes
is zero. -/
def zeroCloseRows : List PriceBar :=
  ⟨95, 110, 100⟩ :: ⟨100, 100, 0⟩ :: List.replicate 21 ⟨100, 100, 100⟩

/-- C4.  The run_live.py variant of the indicator computation violates the
never-raise requirement: on a 23-row series whose lookback window holds a
zero close, it raises `ZeroDivisionError` instead of producing null (the
canonical variant is proved null-safe in `calculate_btd_str_null_guards`). -/
theorem runLive_btd_str_div_by_zero :
    runLive_calculate_btd_str zeroCloseRows = .error .divByZero := by
  simp [runLive_calculate_btd_str, zeroCloseRows, List.length_replicate]

/-- Last `n` elements of a list, embedding the python slice `l[-n:]`; the
whole list when it has at most `n` elements. -/
def lastN (n : ℕ) (l : List ℕ) : List ℕ := l.drop (l.length - n)

/-- Embedding of `nyse.valid_days(start_date, end_date)`: the exchange
calendar is a strictly increasing list of session dates (days as naturals)
and `valid_days` returns its restriction to the inclusive range. -/
def validDays (cal : List ℕ) (s e : ℕ) : List ℕ :=
  cal.filter (fun d => decide (s ≤ d) && decide (d ≤ e))

/-- Embedding of the required-window computation inside
`get_missing_trading_days` (update_db.py lines 221-233).  `endDate` is
already yesterday (`datetime.now().date() - timedelta(days=1)`).  The first
sweep spans `int(n / 0.69) + 10 = 100 * n / 69 + 10` calendar days; when it
yields fewer than `n` sessions the sweep is widened once to
`int(n / 0.65) = 100 * n / 65` days; finally `all_trading_days[-n:]` is
taken, which silently yields fewer than `n` sessions when even the widened
sweep was short. -/
def getRequiredTradingDays (cal : List ℕ) (endDate n : ℕ) : List ℕ :=
  let sweep1 := validDays cal (endDate - (100 * n / 69 + 10)) endDate
  let sweep := if sweep1.length < n then validDays cal (endDate - 100 * n / 65) endDate
               else sweep1
  lastN n sweep

/-- Embedding of `get_missing_trading_days(symbol, days_needed)` (update_db.py
lines 211-247).  `store` is the ascending list of the dates stored for the
symbol, so `lastN n store` is the set produced by
`SELECT date ... ORDER BY date DESC LIMIT n`; the required days not in that
set are returned in their original ascending order. -/
def get_missing_trading_days (cal : List ℕ) (endDate : ℕ) (store : List ℕ) (n : ℕ) :
    List ℕ :=
  (getRequiredTradingDays cal endDate n).filter (fun d => decide (d ∉ lastN n store))

lemma lastN_subset (n : ℕ) (l : List ℕ) : lastN n l ⊆ l := List.drop_subset _ _

lemma lastN_length (n : ℕ) (l : List ℕ) : (lastN n l).length = min n l.length := by
  simp only [lastN, List.length_drop]; omega

lemma sorted_lastN {l : List ℕ} (h : l.Sorted (· < ·)) (n : ℕ) :
    (lastN n l).Sorted (· < ·) :=
  List.Pairwise.sublist (List.drop_sublist _ _) h

lemma sorted_validDays {cal : List ℕ} (h : cal.Sorted (· < ·)) (s e : ℕ) :
    (validDays cal s e).Sorted (· < ·) :=
  List.Pairwise.filter _ h

lemma mem_validDays {cal : List ℕ} {s e x : ℕ} :
    x ∈ validDays cal s e ↔ x ∈ cal ∧ s ≤ x ∧ x ≤ e := by
  simp [validDays, List.mem_filter, and_assoc]

/-- In a strictly sorted list, an element of the last `n` entries has fewer
than `n` entries above it. -/
lemma countP_gt_lt_of_mem_lastN {l : List ℕ} {r n : ℕ}
    (hs : l.Sorted (· < ·)) (hr : r ∈ lastN n l) :
    l.countP (fun x => decide (r < x)) < n := by
  induction l with
  | nil => simp [lastN] at hr
  | cons a t ih =>
    obtain ⟨ha, ht⟩ := List.sorted_cons.mp hs
    by_cases hn : n ≤ t.length
    · have h1 : lastN n (a :: t) = lastN n t := by
        unfold lastN
        rw [List.length_cons, show t.length + 1 - n = (t.length - n) + 1 from by omega,
          List.drop_succ_cons]
      rw [h1] at hr
      have har : a < r := ha r (lastN_subset _ _ hr)
      rw [List.countP_cons, if_neg (by simp [Nat.lt_asymm har])]
      exact ih ht hr
    · have hmem : r ∈ a :: t := lastN_subset _ _ hr
      have hra : ¬ r < a := by
        rcases List.mem_cons.mp hmem with rfl | hrt
        · exact lt_irrefl r
        · exact Nat.lt_asymm (ha r hrt)
      rw [List.countP_cons, if_neg (by simp [hra])]
      have := List.countP_le_length (l := t) (p := fun x => decide (r < x))
      omega

/-- Conversely, a member of a strictly sorted list with fewer than `n`
entries above it belongs to the last `n` entries. -/
lemma mem_lastN_of_countP_lt {l : List ℕ} {r n : ℕ}
    (hs : l.Sorted (· < ·)) (hmem : r ∈ l)
    (hc : l.countP (fun x => decide (r < x)) < n) :
    r ∈ lastN n l := by
  induction l with
  | nil => simp at hmem
  | cons a t ih =>
    obtain ⟨ha, ht⟩ := List.sorted_cons.mp hs
    rcases List.mem_cons.mp hmem with rfl | hrt
    · have hall : t.countP (fun x => decide (r < x)) = t.length :=
        List.countP_eq_length.mpr (fun x hx => by simpa using ha x hx)
      rw [List.countP_cons, if_neg (by simp)] at hc
      unfold lastN
      rw [List.length_cons, show t.length + 1 - n = 0 from by omega, List.drop_zero]
      exact List.mem_cons_self _ _
    · have hcnt : t.countP (fun x => decide (r < x)) < n := by
        rw [List.countP_cons] at hc
        split at hc <;> omega
      have hr' : r ∈ lastN n t := ih ht hrt hcnt
      by_cases hn : n ≤ t.length
      · have h1 : lastN n (a :: t) = lastN n t := by
          unfold lastN
          rw [List.length_cons, show t.length + 1 - n = (t.length - n) + 1 from by omega,
            List.drop_succ_cons]
        rw [h1]
        exact hr'
      · unfold lastN
        rw [List.length_cons, show t.length + 1 - n = 0 from by omega, List.drop_zero]
        exact hmem

/-- Counting under a predicate grows along an injection of a duplicate-free
list into another list. -/
lemma countP_le_countP_of_subset {l₁ l₂ : List ℕ} (p : ℕ → Bool) (h1 : l₁.Nodup)
    (hsub : ∀ x ∈ l₁, p x = true → x ∈ l₂) :
    l₁.countP p ≤ l₂.countP p := by
  rw [List.countP_eq_length_filter, List.countP_eq_length_filter]
  apply List.Subperm.length_le
  apply List.Nodup.subperm (h1.filter p)
  intro x hx
  rw [List.mem_filter] at hx ⊢
  exact ⟨hsub x hx.1 hx.2, hx.2⟩

/-- Core of the gap-detection argument: a required day that is stored at all
is among the `n` most recent stored dates, provided every stored date is a
calendar session not after the window end. -/
lemma mem_lastN_store_of_required {cal store : List ℕ} {s e n r : ℕ}
    (hcal : cal.Sorted (· < ·)) (hstore : store.Sorted (· < ·))
    (hsub : ∀ x ∈ store, x ∈ cal ∧ x ≤ e)
    (hr : r ∈ lastN n (validDays cal s e)) (hrs : r ∈ store) :
    r ∈ lastN n store := by
  have hsweep : (validDays cal s e).Sorted (· < ·) := sorted_validDays hcal s e
  have hrin : r ∈ validDays cal s e := lastN_subset _ _ hr
  have hsr : s ≤ r := (mem_validDays.mp hrin).2.1
  have hswcount : (validDays cal s e).countP (fun x => decide (r < x)) < n :=
    countP_gt_lt_of_mem_lastN hsweep hr
  have hstorecount : store.countP (fun x => decide (r < x)) ≤
      (validDays cal s e).countP (fun x => decide (r < x)) := by
    apply countP_le_countP_of_subset _ hstore.nodup
    intro x hx hpx
    have hrx : r < x := of_decide_eq_true hpx
    exact mem_validDays.mpr ⟨(hsub x hx).1, le_trans hsr (le_of_lt hrx), (hsub x hx).2⟩
  exact mem_lastN_of_countP_lt hstore hrs (lt_of_le_of_lt hstorecount hswcount)

lemma getRequired_eq_rep (cal : List ℕ) (e n : ℕ) :
    ∃ s, getRequiredTradingDays cal e n = lastN n (validDays cal s e) := by
  unfold getRequiredTradingDays
  by_cases h : (validDays cal (e - (100 * n / 69 + 10)) e).length < n
  · exact ⟨e - 100 * n / 65, by simp [h]⟩
  · exact ⟨e - (100 * n / 69 + 10), by simp [h]⟩

lemma required_sorted {cal : List ℕ} (hcal : cal.Sorted (· < ·)) (e n : ℕ) :
    (getRequiredTradingDays cal e n).Sorted (· < ·) := by
  obtain ⟨s, hs⟩ := getRequired_eq_rep cal e n
  rw [hs]
  exact sorted_lastN (sorted_validDays hcal s e) n

lemma required_mem {cal : List ℕ} {e n d : ℕ}
    (hd : d ∈ getRequiredTradingDays cal e n) : d ∈ cal ∧ d ≤ e := by
  obtain ⟨s, hs⟩ := getRequired_eq_rep cal e n
  rw [hs] at hd
  have := mem_validDays.mp (lastN_subset _ _ hd)
  exact ⟨this.1, this.2.2⟩

/-- When every required day is stored, gap detection returns the empty
list. -/
lemma missing_nil_of_required_stored {cal store : List ℕ} {e n : ℕ}
    (hcal : cal.Sorted (· < ·)) (hstore : store.Sorted (· < ·))
    (hsub : ∀ x ∈ store, x ∈ cal ∧ x ≤ e)
    (hall : ∀ d ∈ getRequiredTradingDays cal e n, d ∈ store) :
    get_missing_trading_days cal e store n = [] := by
  unfold get_missing_trading_days
  rw [List.filter_eq_nil_iff]
  intro d hd
  obtain ⟨s, hs⟩ := getRequired_eq_rep cal e n
  simp only [decide_eq_true_eq, not_not]
  exact mem_lastN_store_of_required hcal hstore hsub (hs ▸ hd) (hall d hd)

/-- C2.  Gap detection returns exactly required minus have, in ascending
order, where required is the last `n` trading days of the swept calendar
window and have is the set of the `n` most recent stored dates; it is empty
when every required day is stored, and re-running it after a successful
backfill of all the missing days (any store whose dates are exactly the old
ones plus the missing ones) yields the empty list.  The hypotheses: the
calendar and the store are strictly ascending, and every stored date is a
calendar session not after the window end. -/
theorem gap_detection_spec (cal store : List ℕ) (e n : ℕ)
    (hcal : cal.Sorted (· < ·)) (hstore : store.Sorted (· < ·))
    (hsub : ∀ x ∈ store, x ∈ cal ∧ x ≤ e) :
    (∀ d, d ∈ get_missing_trading_days cal e store n ↔
        d ∈ getRequiredTradingDays cal e n ∧ d ∉ lastN n store)
    ∧ (get_missing_trading_days cal e store n).Sorted (· < ·)
    ∧ ((∀ d ∈ getRequiredTradingDays cal e n, d ∈ store) →
        get_missing_trading_days cal e store n = [])
    ∧ (∀ store₂ : List ℕ, store₂.Sorted (· < ·) →
        (∀ x, x ∈ store₂ ↔ x ∈ store ∨ x ∈ get_missing_trading_days cal e store n) →
        get_missing_trading_days cal e store₂ n = []) := by
  refine ⟨?_, ?_, ?_, ?_⟩
  · intro d
    simp [get_missing_trading_days, List.mem_filter]
  · exact List.Pairwise.filter _ (required_sorted hcal e n)
  · exact missing_nil_of_required_stored hcal hstore hsub
  · intro store₂ hstore₂ hmem
    apply missing_nil_of_required_stored hcal hstore₂
    · intro x hx
      rcases (hmem x).mp hx with h | h
      · exact hsub x h
      · exact required_mem (List.mem_filter.mp h).1
    · intro d hd
      by_cases hdm : d ∈ get_missing_trading_days cal e store n
      · exact (hmem d).mpr (Or.inr hdm)
      · have hdl : d ∈ lastN n store := by
          by_contra hnot
          exact hdm (by simp [get_missing_trading_days, List.mem_filter, hd, hnot])
        exact (hmem d).mpr (Or.inl (lastN_subset _ _ hdl))

/-- C2 witness.  Gap detection at a concrete calendar `[1,2,3,4,5]`, window
end 5, window size 2 and stored dates `[3,4]`: the required days are `[4,5]`
and the missing list is `[5]`; the full specification above is instantiated
there. -/
theorem gap_detection_spec_witness :
    (∀ d, d ∈ get_missing_trading_days [1,2,3,4,5] 5 [3,4] 2 ↔
        d ∈ getRequiredTradingDays [1,2,3,4,5] 5 2 ∧ d ∉ lastN 2 [3,4])
    ∧ (get_missing_trading_days [1,2,3,4,5] 5 [3,4] 2).Sorted (· < ·)
    ∧ ((∀ d ∈ getRequiredTradingDays [1,2,3,4,5] 5 2, d ∈ [3,4]) →
        get_missing_trading_days [1,2,3,4,5] 5 [3,4] 2 = [])
    ∧ (∀ store₂ : List ℕ, store₂.Sorted (· < ·) →
        (∀ x, x ∈ store₂ ↔ x ∈ [3,4] ∨ x ∈ get_missing_trading_days [1,2,3,4,5] 5 [3,4] 2) →
        get_missing_trading_days [1,2,3,4,5] 5 store₂ 2 = []) :=
  gap_detection_spec [1,2,3,4,5] [3,4] 5 2 (by decide) (by decide) (by decide)

/-- C5 counterexample.  With a calendar holding a single session 98 and
window end 100, a request for 2 sessions returns the single-element list
`[98]` without any failure: the code silently returns fewer than the
requested number of sessions, and no `InsufficientCalendarData` condition
exists anywhere in it. -/
theorem getRequired_silently_short :
    getRequiredTradingDays [98] 100 2 = [98]
    ∧ (getRequiredTradingDays [98] 100 2).length < 2 := by decide

/-- C5 amended.  The trading-day computation sweeps one fixed calendar
window, widens it exactly once when the first sweep yields fewer than `n`
sessions, and then returns the last `min n (found)` sessions of the final
sweep — a total function that silently returns fewer than `n` sessions when
even the widened sweep is short, with no further retry, no hard cap and no
failure condition. -/
theorem getRequired_single_widen (cal : List ℕ) (e n : ℕ) :
    getRequiredTradingDays cal e n =
      lastN n (if (validDays cal (e - (100 * n / 69 + 10)) e).length < n
               then validDays cal (e - 100 * n / 65) e
               else validDays cal (e - (100 * n / 69 + 10)) e)
    ∧ (getRequiredTradingDays cal e n).length
        = min n (if (validDays cal (e - (100 * n / 69 + 10)) e).length < n
                 then validDays cal (e - 100 * n / 65) e
                 else validDays cal (e - (100 * n / 69 + 10)) e).length := by
  refine ⟨rfl, ?_⟩
  rw [getRequiredTradingDays, lastN_length]

/-- Outcome of one provider call `client.get_daily_open_close_agg`: an OK bar,
a response whose status is not OK (no data), or a raised exception.  The bar
payload is irrelevant to the pacing trace and elided here; the persisted
values are modelled by `fetchUpsert` below. -/
inductive FetchOutcome where
  | ok
  | noData
  | raised
deriving DecidableEq, Repr

/-- Observable events of one pass of the fetch loop body. -/
inductive FetchEv where
  | call (d : ℕ)
  | upsert (d : ℕ)
  | logged (d : ℕ)
  | sleep
deriving DecidableEq, Repr

/-- Events of one iteration of the loop body of `fetch_ohlcv_data`
(update_db.py lines 268-295; `fetch_data_from_polygon` in run_live.py lines
173-199 has the same shape): the provider is called; on an OK response the
bar is upserted and the pacing delay `time.sleep(13)` runs; on a raised
exception the error is logged and the delay runs; on a non-OK response the
`continue` statement jumps straight to the next iteration, skipping the
`time.sleep` call at the bottom of the loop body. -/
def dayEvents (provider : ℕ → FetchOutcome) (d : ℕ) : List FetchEv :=
  match provider d with
  | .ok => [.call d, .upsert d, .sleep]
  | .noData => [.call d]
  | .raised => [.call d, .logged d, .sleep]

/-- Event trace of the fetch loop over its trading days. -/
def fetchTrace (provider : ℕ → FetchOutcome) (days : List ℕ) : List FetchEv :=
  (days.map (dayEvents provider)).flatten

/-- C3.  The pacing delay is not executed after every provider call: when the
provider returns a non-OK (no data) response for day 1 and an OK bar for day
2, the trace issues the two calls back to back with no sleep event between
them, because `continue` skips the `time.sleep` at the bottom of the loop. -/
theorem pacing_skipped_on_no_data :
    fetchTrace (fun d => if d = 1 then .noData else .ok) [1, 2] =
      [.call 1, .call 2, .upsert 2, .sleep] := by decide

/-- Provider call order issued by `ensure_22_days_data` (run_live.py lines
226-231) for a non-empty missing-day list: the loop
`for d in reversed(missing_dates)` calls `fetch_data_from_polygon(symbol,
d.date(), d.date())` once per day, so the provider is called in the reverse
of `missing_dates` — and `missing_dates` is ascending, being filtered from
the ascending `nyse.valid_days` list. -/
def ensure22FetchCalls (missing : List ℕ) : List ℕ := missing.reverse

/-- C6.  With missing days `[10, 20]` (ascending), run_live.py issues the
provider calls newest first, `[20, 10]`, contradicting both the claim and
the adjacent source comment `# fetch oldest first`. -/
theorem ensure22_fetches_newest_first :
    ensure22FetchCalls [10, 20] = [20, 10] ∧ ensure22FetchCalls [10, 20] ≠ [10, 20] := by
  decide

/-- One row of the `stock_data` table.  The key columns and the OHLCV columns
follow `CREATE TABLE stock_data` in data/setup_db.py (symbol, date, four
prices, volume, all value columns nullable); the indicator columns are the
six used by calculate_indicators.py and the spec schema (setup_db.py itself
creates only `btd_22` and `str_22` — the remaining four are assumed present,
as every script that touches indicators references them). -/
structure Row where
  symbol : String
  date : ℕ
  open_price : Option ℚ
  high_price : Option ℚ
  low_price : Option ℚ
  close_price : Option ℚ
  volume : Option ℚ
  btd_22 : Option ℚ
  str_22 : Option ℚ
  btd_66 : Option ℚ
  str_66 : Option ℚ
  btd_132 : Option ℚ
  str_132 : Option ℚ
deriving DecidableEq, Repr

/-- Key equality on the primary key (symbol, date). -/
def sameKey (a b : Row) : Bool := a.symbol == b.symbol && a.date == b.date

/-- Embedding of `INSERT OR REPLACE INTO stock_data ...` against the primary
key (symbol, date): SQLite deletes any row conflicting on the primary key
and inserts the new row. -/
def upsertBar (db : List Row) (r : Row) : List Row :=
  (db.filter (fun q => !(sameKey q r))) ++ [r]

/-- Rows of the table holding a given (symbol, date) key. -/
def rowsFor (db : List Row) (sym : String) (d : ℕ) : List Row :=
  db.filter (fun q => q.symbol == sym && q.date == d)

/-- Embedding of the persist step of `fetch_ohlcv_data` (update_db.py lines
275-289): the INSERT OR REPLACE statement lists only the seven key and OHLCV
columns, with prices rounded to two decimals when present, so the freshly
inserted row carries NULL in every indicator column. -/
def fetchUpsert (db : List Row) (sym : String) (d : ℕ) (o h l c v : Option ℚ) : List Row :=
  upsertBar db
    { symbol := sym, date := d,
      open_price := o.map round2, high_price := h.map round2,
      low_price := l.map round2, close_price := c.map round2,
      volume := v,
      btd_22 := none, str_22 := none, btd_66 := none,
      str_66 := none, btd_132 := none, str_132 := none }

lemma sameKey_self (r : Row) : sameKey r r = true := by
  simp [sameKey]

/-- After an upsert, the upserted row is the sole row for its key, whatever
the previous contents of the table. -/
lemma rowsFor_upsertBar (db : List Row) (r : Row) :
    rowsFor (upsertBar db r) r.symbol r.date = [r] := by
  unfold rowsFor upsertBar
  rw [List.filter_append, List.filter_filter]
  have h1 : (db.filter fun q => (q.symbol == r.symbol && q.date == r.date) && !sameKey q r) = [] := by
    rw [List.filter_eq_nil_iff]
    intro q _
    simp [sameKey]
  rw [h1]
  simp [sameKey_self, sameKey]

/-- C7.  Upserting bar `b1` and then bar `b2` for the same (symbol, date)
key leaves exactly one stored row for that key, holding the values of `b2`
(last write wins), and a repeat upsert of the same bar changes nothing. -/
theorem upsert_last_write_wins (db : List Row) (b1 b2 : Row)
    (_hs : b1.symbol = b2.symbol) (_hd : b1.date = b2.date) :
    rowsFor (upsertBar (upsertBar db b1) b2) b2.symbol b2.date = [b2]
    ∧ upsertBar (upsertBar db b1) b1 = upsertBar db b1 := by
  refine ⟨rowsFor_upsertBar (upsertBar db b1) b2, ?_⟩
  unfold upsertBar
  rw [List.filter_append, List.filter_filter]
  simp [sameKey_self, Bool.and_self]

/-- A convenience row constructor for concrete tables: only the close and the
22-day BTD column are populated. -/
def testRow (sym : String) (d : ℕ) (c b22 : Option ℚ) : Row :=
  { symbol := sym, date := d, open_price := none, high_price := none,
    low_price := none, close_price := c, volume := none, btd_22 := b22,
    str_22 := none, btd_66 := none, str_66 := none, btd_132 := none,
    str_132 := none }

/-- C7 witness.  Upserting two bars with key ("A", 1) in sequence leaves the
single row holding the second write's values, and repeating the first upsert
is a no-op. -/
theorem upsert_last_write_wins_witness :
    rowsFor (upsertBar (upsertBar [] (testRow "A" 1 (some 10) none))
        (testRow "A" 1 (some 20) none)) "A" 1 = [testRow "A" 1 (some 20) none]
    ∧ upsertBar (upsertBar [] (testRow "A" 1 (some 10) none)) (testRow "A" 1 (some 10) none)
        = upsertBar [] (testRow "A" 1 (some 10) none) :=
  upsert_last_write_wins [] (testRow "A" 1 (some 10) none) (testRow "A" 1 (some 20) none)
    rfl rfl

/-- C8 counterexample.  A row for ("A", 1) holds the indicator value
`btd_22 = 5`; a later successful fetch-and-upsert of OHLCV data for the same
key leaves the key's single row with `btd_22 = NULL`: INSERT OR REPLACE
replaces the whole row, it does not preserve the indicator columns. -/
theorem fetch_upsert_clears_indicators :
    ((rowsFor (fetchUpsert [testRow "A" 1 (some 50) (some 5)] "A" 1
        (some 10) (some 11) (some 9) (some 10) (some 1000)) "A" 1).map
      (fun r => r.btd_22)) = [none]
    ∧ (testRow "A" 1 (some 50) (some 5)).btd_22 = some 5 := by
  refine ⟨?_, rfl⟩
  have h := rowsFor_upsertBar [testRow "A" 1 (some 50) (some 5)]
    { symbol := "A", date := 1,
      open_price := (some (10 : ℚ)).map round2, high_price := (some (11 : ℚ)).map round2,
      low_price := (some (9 : ℚ)).map round2, close_price := (some (10 : ℚ)).map round2,
      volume := some 1000,
      btd_22 := none, str_22 := none, btd_66 := none,
      str_66 := none, btd_132 := none, str_132 := none }
  rw [fetchUpsert, h]
  rfl

/-- C8 amended.  A later successful fetch-and-upsert for an existing
(symbol, date) replaces the entire row: the key's single resulting row
carries the new OHLCV values (prices rounded to two decimals) and NULL in
every indicator column — previously stored indicator values are discarded,
not preserved. -/
theorem fetch_upsert_replaces_whole_row (db : List Row) (sym : String) (d : ℕ)
    (o h l c v : Option ℚ) :
    rowsFor (fetchUpsert db sym d o h l c v) sym d =
      [{ symbol := sym, date := d,
         open_price := o.map round2, high_price := h.map round2,
         low_price := l.map round2, close_price := c.map round2,
         volume := v,
         btd_22 := none, str_22 := none, btd_66 := none,
         str_66 := none, btd_132 := none, str_132 := none }] :=
  rowsFor_upsertBar db _

/-- Truth value of an `Except` being a success, used to phrase which loop
iterations raised. -/
def exOk {ε α : Type} : Except ε α → Bool
  | .ok _ => true
  | .error _ => false

/-- Embedding of the per-symbol loop of `main` in calculate_indicators.py
(lines 245-251): each symbol's processing step either returns or raises; a
raise is caught by the per-symbol `except`, logged, and the loop continues
with the next symbol; the counter counts the symbols processed without an
exception. -/
def indicatorsLoop {ε : Type} (step : String → Except ε Unit) : List String → ℕ
  | [] => 0
  | s :: rest =>
    (match step s with
     | .ok _ => 1
     | .error _ => 0) + indicatorsLoop step rest

/-- Overall success of the indicators run: `success = processed_count > 0`
(calculate_indicators.py line 254). -/
def indicatorsRunSuccess {ε : Type} (step : String → Except ε Unit)
    (symbols : List String) : Bool :=
  decide (0 < indicatorsLoop step symbols)

/-- Embedding of the per-symbol loop of `update_ohlcv_data` in update_db.py
(lines 314-333): the loop body has no try/except, so the first symbol whose
step raises propagates out of the loop; `main` catches it, logs the run as
failed and exits with code 1.  The result is the list of symbols attempted
and whether the run completed. -/
def update_ohlcv_run {ε : Type} (step : String → Except ε Unit) :
    List String → List String × Bool
  | [] => ([], true)
  | s :: rest =>
    match step s with
    | .error _ => ([s], false)
    | .ok _ =>
      let r := update_ohlcv_run step rest
      (s :: r.1, r.2)

lemma indicatorsLoop_eq {ε : Type} (step : String → Except ε Unit) (symbols : List String) :
    indicatorsLoop step symbols = (symbols.filter (fun s => exOk (step s))).length := by
  induction symbols with
  | nil => rfl
  | cons s rest ih =>
    cases h : step s <;>
      simp [indicatorsLoop, List.filter_cons, exOk, h, ih, Nat.add_comm]

lemma update_run_ok_iff {ε : Type} (step : String → Except ε Unit) (symbols : List String) :
    (update_ohlcv_run step symbols).2 = true ↔ ∀ s ∈ symbols, exOk (step s) = true := by
  induction symbols with
  | nil => simp [update_ohlcv_run]
  | cons s rest ih =>
    cases h : step s with
    | error e =>
      simp only [update_ohlcv_run, h]
      constructor
      · intro hfalse
        exact absurd hfalse (by simp)
      · intro hall
        have := hall s (List.mem_cons_self _ _)
        rw [h] at this
        exact absurd this (by simp [exOk])
    | ok v =>
      simp only [update_ohlcv_run, h]
      rw [ih]
      constructor
      · intro hall x hx
        rcases List.mem_cons.mp hx with rfl | hxr
        · rw [h]; rfl
        · exact hall x hxr
      · intro hall x hx
        exact hall x (List.mem_cons_of_mem _ hx)

/-- C9 counterexample.  In the OHLCV update run there is no per-symbol catch:
with a step that raises on "A" and succeeds on "B", the run stops after "A"
and never processes "B"; with a step that succeeds on "A" and raises on "B",
one symbol is processed yet the run still reports failure.  Both evaluations
contradict the claim that a symbol failure is absorbed and that success means
"at least one symbol processed". -/
theorem update_run_aborts_on_symbol_failure :
    update_ohlcv_run (fun s => if s = "A" then .error () else .ok ()) ["A", "B"]
      = (["A"], false)
    ∧ update_ohlcv_run (fun s => if s = "B" then .error () else .ok ()) ["A", "B"]
      = (["A", "B"], false) := by
  constructor <;> rfl

/-- C9 amended.  The indicators run (calculate_indicators.py) does isolate
per-symbol failures: every symbol is attempted, the processed count is the
number of non-raising symbols, and overall success holds exactly when at
least one symbol was processed.  The OHLCV update run (update_db.py), in
contrast, completes successfully exactly when no symbol at all raises — a
single symbol failure aborts the remaining symbols and fails the run. -/
theorem per_symbol_isolation {ε : Type} (step : String → Except ε Unit)
    (symbols : List String) :
    indicatorsLoop step symbols = (symbols.filter (fun s => exOk (step s))).length
    ∧ (indicatorsRunSuccess step symbols = true ↔ ∃ s ∈ symbols, exOk (step s) = true)
    ∧ ((update_ohlcv_run step symbols).2 = true ↔ ∀ s ∈ symbols, exOk (step s) = true) := by
  refine ⟨indicatorsLoop_eq step symbols, ?_, update_run_ok_iff step symbols⟩
  rw [indicatorsRunSuccess, decide_eq_true_iff, indicatorsLoop_eq step symbols,
    List.length_pos_iff_ne_nil]
  rw [Ne, List.filter_eq_nil_iff]
  push_neg
  constructor
  · rintro ⟨x, hx, hpx⟩
    exact ⟨x, hx, hpx⟩
  · rintro ⟨x, hx, hpx⟩
    exact ⟨x, hx, hpx⟩

/-- Embedding of `calculate_and_update_btd(symbol)` from
calculate_indicators.py (lines 101-141), acting on the latest-dated row of
the symbol (the UPDATE targets `date = (SELECT MAX(date) ...)`).  With fewer
than 23 bars nothing happens; otherwise `update_fields` collects only the
non-null BTD results, the UPDATE statement sets exactly those columns (a
null period's column is omitted and keeps its stored value), and when every
period is null no statement is executed at all.  The boolean reports whether
a database write was performed. -/
def calculate_and_update_btd (df : List PriceBar) (row : Row) : Row × Bool :=
  if df.length < 23 then (row, false)
  else
    let b22 := (calculate_btd_str df 22).1
    let b66 := (calculate_btd_str df 66).1
    let b132 := (calculate_btd_str df 132).1
    if b22.isSome || b66.isSome || b132.isSome then
      ({ row with
          btd_22 := if b22.isSome then b22 else row.btd_22,
          btd_66 := if b66.isSome then b66 else row.btd_66,
          btd_132 := if b132.isSome then b132 else row.btd_132 }, true)
    else (row, false)

/-- Embedding of `calculate_and_update_str(symbol)` from
calculate_indicators.py (lines 144-184); the STR counterpart of
`calculate_and_update_btd`. -/
def calculate_and_update_str (df : List PriceBar) (row : Row) : Row × Bool :=
  if df.length < 23 then (row, false)
  else
    let s22 := (calculate_btd_str df 22).2
    let s66 := (calculate_btd_str df 66).2
    let s132 := (calculate_btd_str df 132).2
    if s22.isSome || s66.isSome || s132.isSome then
      ({ row with
          str_22 := if s22.isSome then s22 else row.str_22,
          str_66 := if s66.isSome then s66 else row.str_66,
          str_132 := if s132.isSome then s132 else row.str_132 }, true)
    else (row, false)

/-- C10.  When a period's indicator comes out null its column is omitted
from the UPDATE, so the value already stored in that column on the latest
row is left in place; and when all periods are null no write happens at all
(the row is returned unchanged and the write flag is false) — for BTD and
STR alike. -/
lemma btd22_preserved {df : List PriceBar} (row : Row)
    (h : (calculate_btd_str df 22).1 = none) :
    ((calculate_and_update_btd df row).1).btd_22 = row.btd_22 := by
  unfold calculate_and_update_btd
  split
  · rfl
  · simp only [h, Option.isSome_none, Bool.false_or]
    split <;> simp

lemma btd66_preserved {df : List PriceBar} (row : Row)
    (h : (calculate_btd_str df 66).1 = none) :
    ((calculate_and_update_btd df row).1).btd_66 = row.btd_66 := by
  unfold calculate_and_update_btd
  split
  · rfl
  · simp only [h, Option.isSome_none, Bool.or_false, Bool.false_or]
    split <;> simp

lemma btd132_preserved {df : List PriceBar} (row : Row)
    (h : (calculate_btd_str df 132).1 = none) :
    ((calculate_and_update_btd df row).1).btd_132 = row.btd_132 := by
  unfold calculate_and_update_btd
  split
  · rfl
  · simp only [h, Option.isSome_none, Bool.or_false]
    split <;> simp

lemma btd_no_write {df : List PriceBar} (row : Row)
    (h22 : (calculate_btd_str df 22).1 = none) (h66 : (calculate_btd_str df 66).1 = none)
    (h132 : (calculate_btd_str df 132).1 = none) :
    calculate_and_update_btd df row = (row, false) := by
  unfold calculate_and_update_btd
  split
  · rfl
  · simp [h22, h66, h132]

lemma str22_preserved {df : List PriceBar} (row : Row)
    (h : (calculate_btd_str df 22).2 = none) :
    ((calculate_and_update_str df row).1).str_22 = row.str_22 := by
  unfold calculate_and_update_str
  split
  · rfl
  · simp only [h, Option.isSome_none, Bool.false_or]
    split <;> simp

lemma str66_preserved {df : List PriceBar} (row : Row)
    (h : (calculate_btd_str df 66).2 = none) :
    ((calculate_and_update_str df row).1).str_66 = row.str_66 := by
  unfold calculate_and_update_str
  split
  · rfl
  · simp only [h, Option.isSome_none, Bool.or_false, Bool.false_or]
    split <;> simp

lemma str132_preserved {df : List PriceBar} (row : Row)
    (h : (calculate_btd_str df 132).2 = none) :
    ((calculate_and_update_str df row).1).str_132 = row.str_132 := by
  unfold calculate_and_update_str
  split
  · rfl
  · simp only [h, Option.isSome_none, Bool.or_false]
    split <;> simp

lemma str_no_write {df : List PriceBar} (row : Row)
    (h22 : (calculate_btd_str df 22).2 = none) (h66 : (calculate_btd_str df 66).2 = none)
    (h132 : (calculate_btd_str df 132).2 = none) :
    calculate_and_update_str df row = (row, false) := by
  unfold calculate_and_update_str
  split
  · rfl
  · simp [h22, h66, h132]

theorem indicator_nulls_preserved (df : List PriceBar) (row : Row) :
    ((calculate_btd_str df 22).1 = none →
        ((calculate_and_update_btd df row).1).btd_22 = row.btd_22)
    ∧ ((calculate_btd_str df 66).1 = none →
        ((calculate_and_update_btd df row).1).btd_66 = row.btd_66)
    ∧ ((calculate_btd_str df 132).1 = none →
        ((calculate_and_update_btd df row).1).btd_132 = row.btd_132)
    ∧ ((calculate_btd_str df 22).1 = none ∧ (calculate_btd_str df 66).1 = none ∧
        (calculate_btd_str df 132).1 = none →
        calculate_and_update_btd df row = (row, false))
    ∧ ((calculate_btd_str df 22).2 = none →
        ((calculate_and_update_str df row).1).str_22 = row.str_22)
    ∧ ((calculate_btd_str df 66).2 = none →
        ((calculate_and_update_str df row).1).str_66 = row.str_66)
    ∧ ((calculate_btd_str df 132).2 = none →
        ((calculate_and_update_str df row).1).str_132 = row.str_132)
    ∧ ((calculate_btd_str df 22).2 = none ∧ (calculate_btd_str df 66).2 = none ∧
        (calculate_btd_str df 132).2 = none →
        calculate_and_update_str df row = (row, false)) :=
  ⟨btd22_preserved row, btd66_preserved row, btd132_preserved row,
   fun h => btd_no_write row h.1 h.2.1 h.2.2,
   str22_preserved row, str66_preserved row, str132_preserved row,
   fun h => str_no_write row h.1 h.2.1 h.2.2⟩

/-- C10 witness.  With an empty dataframe every period is null: the update
functions leave the latest row (here holding `btd_22 = 7`) untouched and
perform no write. -/
theorem indicator_nulls_preserved_witness :
    calculate_and_update_btd [] (testRow "A" 1 none (some 7))
      = (testRow "A" 1 none (some 7), false)
    ∧ ((calculate_and_update_btd [] (testRow "A" 1 none (some 7))).1).btd_22 = some 7 := by
  have h := (indicator_nulls_preserved [] (testRow "A" 1 none (some 7))).2.2.2.1
    ⟨rfl, rfl, rfl⟩
  exact ⟨h, by rw [h]; rfl⟩

end AnalystBot
